import Mathlib

/-!
Verification of the computational core of the Lab1 notebook: gravitational
potential, gravitational force field, and the rocket-burn altitude estimate.
The Python floating-point arithmetic is modelled by exact real arithmetic.
-/

noncomputable section

namespace Lab1

/-- Gravitational constant, from the notebook's constant block (m^3/kg/s^2). -/
def G : ℝ := 6.67e-11

/-- Surface gravity (m/s^2). -/
def g : ℝ := 9.81

/-- Mass of the Earth (kg). -/
def M_earth : ℝ := 5.9e24

/-- Mass of the Moon (kg). -/
def M_moon : ℝ := 7.3e22

/-- Earth-Moon distance (m). -/
def d_earth_moon : ℝ := 3.8e8

/-- Mass of the Apollo command module (kg). -/
def m_cmd : ℝ := 5500

/-- Exhaust velocity (m/s). -/
def ve : ℝ := 2.4e3

/-- Propellant mass-flow rate (kg/s). -/
def mdot : ℝ := 1.3e4

/-- Initial rocket mass (kg). -/
def m0 : ℝ := 2.8e6

/-- Final (dry) rocket mass (kg). -/
def mf : ℝ := 7.5e5

/-- Scalar gravitational potential of a point mass M at (xM, yM), queried at
(x, y). The distance r is floored at 1e3 m before division, as in the source:
r = sqrt((x-xM)^2+(y-yM)^2); r = maximum(r, 1e3); return -G*M/r. -/
def gravitational_potential (M xM yM x y : ℝ) : ℝ :=
  -G * M / max (Real.sqrt ((x - xM) ^ 2 + (y - yM) ^ 2)) 1e3

/-- Gravitational force vector on test mass m2 at (x2, y2) from source mass M1
at (x1, y1): dx = x2-x1; dy = y2-y1; r2 = max(dx^2+dy^2, 1e6); r = sqrt(r2);
F = -G*M1*m2/r2; returns (F*dx/r, F*dy/r), as in the source. -/
def gravitational_force (M1 m2 x1 y1 x2 y2 : ℝ) : ℝ × ℝ :=
  let dx := x2 - x1
  let dy := y2 - y1
  let r2 := max (dx ^ 2 + dy ^ 2) 1e6
  let r := Real.sqrt r2
  let F := -G * M1 * m2 / r2
  (F * dx / r, F * dy / r)

/-- Scalar magnitude sqrt(Fx^2 + Fy^2) derived from a force vector, as in the
source line magnitude = np.sqrt(Fx_total**2 + Fy_total**2). -/
def force_magnitude (Fx Fy : ℝ) : ℝ :=
  Real.sqrt (Fx ^ 2 + Fy ^ 2)

/-- Moon x-position in the notebook scenario: d_earth_moon / sqrt(2). -/
def x_moon : ℝ := d_earth_moon / Real.sqrt 2

/-- Moon y-position in the notebook scenario: d_earth_moon / sqrt(2). -/
def y_moon : ℝ := d_earth_moon / Real.sqrt 2

/-- Combined Earth+Moon potential at a query point, as computed by the source
line phi_total = gravitational_potential(M_earth,0,0,X,Y) +
gravitational_potential(M_moon,x_moon,y_moon,X,Y). -/
def phi_total (x y : ℝ) : ℝ :=
  gravitational_potential M_earth 0 0 x y +
    gravitational_potential M_moon x_moon y_moon x y

/-- A point mass: mass in kg and a 2D position in m. -/
structure PointMass where
  M : ℝ
  x : ℝ
  y : ℝ

/-- Total potential of a list of point-mass sources at a query point: the sum
of the individual potentials. -/
def potentialSum (srcs : List PointMass) (x y : ℝ) : ℝ :=
  (srcs.map (fun s => gravitational_potential s.M s.x s.y x y)).sum

/-- Rocket velocity profile, as in the source: m_t = max(m0 - mdot*t, mf);
if m_t > mf then ve*log(m0/m_t) - g*t else 0. The parameters shadow the
scenario constants, exactly as in the Python function signature. -/
def delta_v (t m0 mf mdot ve g : ℝ) : ℝ :=
  let m_t := max (m0 - mdot * t) mf
  if m_t > mf then ve * Real.log (m0 / m_t) - g * t else 0

/-- Burn time, from the source: T = (m0 - mf) / mdot. -/
def T : ℝ := (m0 - mf) / mdot

/-- The integrand handed to quad: v_func = lambda t: delta_v(t, m0, mf, mdot,
ve, g). -/
def v_func (t : ℝ) : ℝ := delta_v t m0 mf mdot ve g

/-- Burnout altitude: the definite integral of v_func from 0 to T. The source
computes it with scipy quad; the quadrature is modelled by the exact
interval integral. -/
def h : ℝ := ∫ t in (0:ℝ)..T, v_func t

/-- Total force of Earth and Moon on the command module at one grid point, the
body of the source's nested loop: Fx1,Fy1 = gravitational_force(M_earth,
m_cmd, 0, 0, x, y); Fx2,Fy2 = gravitational_force(M_moon, m_cmd, x_moon,
y_moon, x, y); totals are the sums. -/
def force_at (x y : ℝ) : ℝ × ℝ :=
  let F1 := gravitational_force M_earth m_cmd 0 0 x y
  let F2 := gravitational_force M_moon m_cmd x_moon y_moon x y
  (F1.1 + F2.1, F1.2 + F2.2)

/-- One iteration of the source's grid loop: write the force at cell ij of
the coordinate grids X, Y into the accumulated field. -/
def gridStep (X Y : ℕ → ℕ → ℝ) (s : ℕ × ℕ → ℝ × ℝ) (ij : ℕ × ℕ) :
    ℕ × ℕ → ℝ × ℝ :=
  Function.update s ij (force_at (X ij.1 ij.2) (Y ij.1 ij.2))

/-- The source's nested double loop, as a left fold of gridStep over a list of
cell indices, starting from the all-zero field Fx_total = Fy_total = 0. -/
def gridLoop (X Y : ℕ → ℕ → ℝ) (L : List (ℕ × ℕ)) : ℕ × ℕ → ℝ × ℝ :=
  L.foldl (gridStep X Y) (fun _ => (0, 0))

/-- Row-major enumeration of the n x n grid cells, the iteration order of
for i in range(n): for j in range(n). -/
def gridIndices (n : ℕ) : List (ℕ × ℕ) :=
  (List.range n).flatMap (fun i => (List.range n).map (fun j => (i, j)))

theorem G_pos : 0 < G := by norm_num [G]

/-- C1: the potential equals -G*M/r with r the Euclidean distance floored at
1000 m, the divisor is strictly positive (no division by zero), and the value
is bounded in magnitude by G*|M|/1000 (finite for finite input). -/
theorem gravitational_potential_spec (M xM yM x y : ℝ) :
    gravitational_potential M xM yM x y =
      -G * M / max (Real.sqrt ((x - xM) ^ 2 + (y - yM) ^ 2)) 1000 ∧
    0 < max (Real.sqrt ((x - xM) ^ 2 + (y - yM) ^ 2)) 1000 ∧
    |gravitational_potential M xM yM x y| ≤ G * |M| / 1000 := by
  have h1000 : (1e3 : ℝ) = 1000 := by norm_num
  set r := Real.sqrt ((x - xM) ^ 2 + (y - yM) ^ 2) with hr
  have hrpos : (0:ℝ) < max r 1000 := lt_of_lt_of_le (by norm_num) (le_max_right _ _)
  refine ⟨by rw [gravitational_potential, h1000], hrpos, ?_⟩
  have habs : |gravitational_potential M xM yM x y| = G * |M| / max r 1000 := by
    rw [gravitational_potential, h1000, abs_div, abs_of_pos hrpos, abs_mul,
      abs_neg, abs_of_pos G_pos]
  rw [habs]
  exact div_le_div_of_nonneg_left (mul_nonneg G_pos.le (abs_nonneg M))
    (by norm_num) (le_max_right _ _)

theorem delta_v_eq_ite (t m0 mf mdot ve g : ℝ) :
    delta_v t m0 mf mdot ve g =
      if mf < max (m0 - mdot * t) mf then
        ve * Real.log (m0 / max (m0 - mdot * t) mf) - g * t
      else 0 := rfl

/-- C3: delta_v is a two-state profile over m(t) = max(m0 - mdot*t, mf): while
m(t) > mf it returns ve*ln(m0/m(t)) - g*t, when m(t) <= mf it returns 0, and in
particular for every t past the burn time (m0 - mf)/mdot it returns exactly 0. -/
theorem delta_v_two_state (t m0 mf mdot ve g : ℝ) :
    (mf < max (m0 - mdot * t) mf →
      delta_v t m0 mf mdot ve g =
        ve * Real.log (m0 / max (m0 - mdot * t) mf) - g * t) ∧
    (max (m0 - mdot * t) mf ≤ mf → delta_v t m0 mf mdot ve g = 0) ∧
    (0 < mdot → (m0 - mf) / mdot < t → delta_v t m0 mf mdot ve g = 0) := by
  refine ⟨fun hlt => ?_, fun hle => ?_, fun hmdot hT => ?_⟩
  · rw [delta_v_eq_ite, if_pos hlt]
  · rw [delta_v_eq_ite, if_neg (not_lt.mpr hle)]
  · have hburn : m0 - mdot * t < mf := by
      have := (div_lt_iff₀ hmdot).mp hT
      linarith [this]
    rw [delta_v_eq_ite, if_neg (not_lt.mpr (le_of_eq (max_eq_right hburn.le)))]

/-- Witness for C3 at concrete inputs: with m0 = 2, mf = 1, mdot = 1, ve = 1,
g = 0, the profile is in the burning state at t = 0 and returns 0 at t = 2,
which is past the burn time 1. -/
theorem delta_v_two_state_witness :
    delta_v 0 2 1 1 1 0 = 1 * Real.log (2 / max (2 - 1 * 0) 1) - 0 * 0 ∧
    delta_v 2 2 1 1 1 0 = 0 := by
  constructor
  · exact (delta_v_two_state 0 2 1 1 1 0).1 (by norm_num)
  · exact (delta_v_two_state 2 2 1 1 1 0).2.2 (by norm_num) (by norm_num)

/-- C5: superposition of the potential: the source's phi_total at any query
point is exactly the arithmetic sum of the two independently evaluated
potentials, it agrees with the generic sum over the two-source list, and the
list potential is additive over concatenation of sources with no interaction
terms. -/
theorem phi_total_superposition (x y : ℝ) :
    phi_total x y =
      gravitational_potential M_earth 0 0 x y +
        gravitational_potential M_moon x_moon y_moon x y ∧
    phi_total x y =
      potentialSum [⟨M_earth, 0, 0⟩, ⟨M_moon, x_moon, y_moon⟩] x y ∧
    ∀ s1 s2 : List PointMass,
      potentialSum (s1 ++ s2) x y = potentialSum s1 x y + potentialSum s2 x y := by
  refine ⟨rfl, by simp [phi_total, potentialSum], fun s1 s2 => ?_⟩
  simp [potentialSum]

/-- C6: the burn time is the closed form (m0 - mf)/mdot, and with the scenario
constants it is approximately 157.69 s (within 0.005 s). -/
theorem burn_time_closed_form :
    T = (m0 - mf) / mdot ∧ |T - 157.69| < 0.005 := by
  refine ⟨rfl, ?_⟩
  rw [T, m0, mf, mdot, abs_lt]
  norm_num

/-- C7: for a single positive mass and two query points whose distances to the
mass are at least the 1000 m clamp, the farther point has strictly smaller
absolute potential. -/
theorem potential_abs_strict_anti (M xM yM x1 y1 x2 y2 : ℝ) (hM : 0 < M)
    (h1 : 1000 ≤ Real.sqrt ((x1 - xM) ^ 2 + (y1 - yM) ^ 2))
    (h12 : Real.sqrt ((x1 - xM) ^ 2 + (y1 - yM) ^ 2) <
      Real.sqrt ((x2 - xM) ^ 2 + (y2 - yM) ^ 2)) :
    |gravitational_potential M xM yM x2 y2| <
      |gravitational_potential M xM yM x1 y1| := by
  have h1e3 : (1e3 : ℝ) = 1000 := by norm_num
  set r1 := Real.sqrt ((x1 - xM) ^ 2 + (y1 - yM) ^ 2) with hr1
  set r2 := Real.sqrt ((x2 - xM) ^ 2 + (y2 - yM) ^ 2) with hr2
  have hm1 : max r1 (1e3 : ℝ) = r1 := max_eq_left (by rw [h1e3]; exact h1)
  have hm2 : max r2 (1e3 : ℝ) = r2 :=
    max_eq_left (by rw [h1e3]; exact le_trans h1 h12.le)
  have hr1pos : (0:ℝ) < r1 := lt_of_lt_of_le (by norm_num) h1
  have hr2pos : (0:ℝ) < r2 := lt_trans hr1pos h12
  have e1 : |gravitational_potential M xM yM x1 y1| = G * M / r1 := by
    rw [gravitational_potential, ← hr1, hm1, abs_div, abs_of_pos hr1pos,
      abs_mul, abs_neg, abs_of_pos G_pos, abs_of_pos hM]
  have e2 : |gravitational_potential M xM yM x2 y2| = G * M / r2 := by
    rw [gravitational_potential, ← hr2, hm2, abs_div, abs_of_pos hr2pos,
      abs_mul, abs_neg, abs_of_pos G_pos, abs_of_pos hM]
  rw [e1, e2]
  exact div_lt_div_of_pos_left (mul_pos G_pos hM) hr1pos h12

/-- Witness for C7: for a unit mass at the origin, the potential at (0, 3000)
is smaller in magnitude than at (2000, 0). -/
theorem potential_abs_strict_anti_witness :
    |gravitational_potential 1 0 0 0 3000| <
      |gravitational_potential 1 0 0 2000 0| := by
  have e1 : Real.sqrt (((2000:ℝ) - 0) ^ 2 + ((0:ℝ) - 0) ^ 2) = 2000 := by
    rw [show ((2000:ℝ) - 0) ^ 2 + ((0:ℝ) - 0) ^ 2 = 2000 ^ 2 by norm_num]
    exact Real.sqrt_sq (by norm_num)
  have e2 : Real.sqrt (((0:ℝ) - 0) ^ 2 + ((3000:ℝ) - 0) ^ 2) = 3000 := by
    rw [show ((0:ℝ) - 0) ^ 2 + ((3000:ℝ) - 0) ^ 2 = 3000 ^ 2 by norm_num]
    exact Real.sqrt_sq (by norm_num)
  exact potential_abs_strict_anti 1 0 0 2000 0 0 3000 (by norm_num)
    (by rw [e1]; norm_num) (by rw [e1, e2]; norm_num)

/-- C10: a query point exactly at the source's position gives dx = dy = 0, so
gravitational_force returns exactly (0, 0): the clamp floors r^2 but not the
displacement, so the force vanishes at the mass location. -/
theorem force_at_source_is_zero (M1 m2 x1 y1 : ℝ) :
    gravitational_force M1 m2 x1 y1 x1 y1 = (0, 0) := by
  simp [gravitational_force]

theorem sqrt_1e6 : Real.sqrt (1e6 : ℝ) = 1000 := by
  rw [show (1e6:ℝ) = 1000 ^ 2 by norm_num]
  exact Real.sqrt_sq (by norm_num)

/-- Closed form of the force when the squared distance is at most the 1e6 m^2
floor: the clamp replaces both r2 and r by their floor values, so each
component is -G*M1*m2/1e6 times displacement/1000. -/
theorem gravitational_force_clamped (M1 m2 x1 y1 x2 y2 : ℝ)
    (hd : (x2 - x1) ^ 2 + (y2 - y1) ^ 2 ≤ 1000000) :
    gravitational_force M1 m2 x1 y1 x2 y2 =
      (-G * M1 * m2 / 1000000 * ((x2 - x1) / 1000),
       -G * M1 * m2 / 1000000 * ((y2 - y1) / 1000)) := by
  have hmax : max ((x2 - x1) ^ 2 + (y2 - y1) ^ 2) (1e6:ℝ) = 1e6 :=
    max_eq_right (by norm_num; exact hd)
  simp only [gravitational_force, hmax, sqrt_1e6, Prod.mk.injEq]
  constructor <;> · norm_num; ring

/-- Closed form of the force when the squared distance is at least the floor:
the clamp is inactive and r2 is the true squared distance. -/
theorem gravitational_force_unclamped (M1 m2 x1 y1 x2 y2 : ℝ)
    (hd : 1000000 ≤ (x2 - x1) ^ 2 + (y2 - y1) ^ 2) :
    gravitational_force M1 m2 x1 y1 x2 y2 =
      (-G * M1 * m2 / ((x2 - x1) ^ 2 + (y2 - y1) ^ 2) *
        ((x2 - x1) / Real.sqrt ((x2 - x1) ^ 2 + (y2 - y1) ^ 2)),
       -G * M1 * m2 / ((x2 - x1) ^ 2 + (y2 - y1) ^ 2) *
        ((y2 - y1) / Real.sqrt ((x2 - x1) ^ 2 + (y2 - y1) ^ 2))) := by
  have hmax : max ((x2 - x1) ^ 2 + (y2 - y1) ^ 2) (1e6:ℝ) =
      (x2 - x1) ^ 2 + (y2 - y1) ^ 2 :=
    max_eq_left (by norm_num; exact hd)
  simp only [gravitational_force, hmax, Prod.mk.injEq]
  constructor <;> ring

theorem sqrt_3_4_dist : Real.sqrt (((3:ℝ) - 0) ^ 2 + ((4:ℝ) - 0) ^ 2) = 5 := by
  rw [show ((3:ℝ) - 0) ^ 2 + ((4:ℝ) - 0) ^ 2 = 5 ^ 2 by norm_num]
  exact Real.sqrt_sq (by norm_num)

/-- C2 (amended): the derived magnitude sqrt(Fx^2+Fy^2) is always nonnegative,
the force vector always has nonnegative dot product with the displacement from
the query point toward the source, and for query points at distance at least
1000 m from the source the magnitude equals G*M1*m2/r2 with r2 floored at
1e6 m^2; inside the clamp region the magnitude claim fails (see the
counterexample), as the returned vector is additionally scaled by dist/1000. -/
theorem gravitational_force_spec (M1 m2 x1 y1 x2 y2 : ℝ)
    (hM1 : 0 ≤ M1) (hm2 : 0 ≤ m2) :
    0 ≤ force_magnitude (gravitational_force M1 m2 x1 y1 x2 y2).1
        (gravitational_force M1 m2 x1 y1 x2 y2).2 ∧
    0 ≤ (gravitational_force M1 m2 x1 y1 x2 y2).1 * (x1 - x2) +
        (gravitational_force M1 m2 x1 y1 x2 y2).2 * (y1 - y2) ∧
    (1000 ≤ Real.sqrt ((x2 - x1) ^ 2 + (y2 - y1) ^ 2) →
      force_magnitude (gravitational_force M1 m2 x1 y1 x2 y2).1
          (gravitational_force M1 m2 x1 y1 x2 y2).2 =
        G * M1 * m2 / max ((x2 - x1) ^ 2 + (y2 - y1) ^ 2) 1000000) := by
  have hr2pos : (0:ℝ) < max ((x2 - x1) ^ 2 + (y2 - y1) ^ 2) 1e6 :=
    lt_of_lt_of_le (by norm_num) (le_max_right _ _)
  refine ⟨Real.sqrt_nonneg _, ?_, ?_⟩
  · have key : (gravitational_force M1 m2 x1 y1 x2 y2).1 * (x1 - x2) +
        (gravitational_force M1 m2 x1 y1 x2 y2).2 * (y1 - y2) =
        G * M1 * m2 / max ((x2 - x1) ^ 2 + (y2 - y1) ^ 2) 1e6 *
          ((x2 - x1) ^ 2 + (y2 - y1) ^ 2) /
          Real.sqrt (max ((x2 - x1) ^ 2 + (y2 - y1) ^ 2) 1e6) := by
      simp only [gravitational_force]
      ring
    rw [key]
    have h1 : (0:ℝ) ≤ G * M1 * m2 / max ((x2 - x1) ^ 2 + (y2 - y1) ^ 2) 1e6 :=
      div_nonneg (mul_nonneg (mul_nonneg G_pos.le hM1) hm2) hr2pos.le
    exact div_nonneg (mul_nonneg h1 (by positivity)) (Real.sqrt_nonneg _)
  · intro hdist
    have hS0 : (0:ℝ) ≤ (x2 - x1) ^ 2 + (y2 - y1) ^ 2 := by positivity
    have hd2 : (1000000:ℝ) ≤ (x2 - x1) ^ 2 + (y2 - y1) ^ 2 := by
      nlinarith [Real.sq_sqrt hS0, Real.sqrt_nonneg ((x2 - x1) ^ 2 + (y2 - y1) ^ 2)]
    have hSpos : (0:ℝ) < (x2 - x1) ^ 2 + (y2 - y1) ^ 2 :=
      lt_of_lt_of_le (by norm_num) hd2
    rw [gravitational_force_unclamped M1 m2 x1 y1 x2 y2 hd2]
    dsimp only
    rw [force_magnitude]
    have hrs : Real.sqrt ((x2 - x1) ^ 2 + (y2 - y1) ^ 2) ^ 2 =
        (x2 - x1) ^ 2 + (y2 - y1) ^ 2 := Real.sq_sqrt hS0
    have key2 : (-G * M1 * m2 / ((x2 - x1) ^ 2 + (y2 - y1) ^ 2) *
          ((x2 - x1) / Real.sqrt ((x2 - x1) ^ 2 + (y2 - y1) ^ 2))) ^ 2 +
        (-G * M1 * m2 / ((x2 - x1) ^ 2 + (y2 - y1) ^ 2) *
          ((y2 - y1) / Real.sqrt ((x2 - x1) ^ 2 + (y2 - y1) ^ 2))) ^ 2 =
        (G * M1 * m2 / ((x2 - x1) ^ 2 + (y2 - y1) ^ 2)) ^ 2 := by
      have step : (-G * M1 * m2 / ((x2 - x1) ^ 2 + (y2 - y1) ^ 2) *
            ((x2 - x1) / Real.sqrt ((x2 - x1) ^ 2 + (y2 - y1) ^ 2))) ^ 2 +
          (-G * M1 * m2 / ((x2 - x1) ^ 2 + (y2 - y1) ^ 2) *
            ((y2 - y1) / Real.sqrt ((x2 - x1) ^ 2 + (y2 - y1) ^ 2))) ^ 2 =
          (G * M1 * m2 / ((x2 - x1) ^ 2 + (y2 - y1) ^ 2)) ^ 2 *
            (((x2 - x1) ^ 2 + (y2 - y1) ^ 2) /
              Real.sqrt ((x2 - x1) ^ 2 + (y2 - y1) ^ 2) ^ 2) := by
        ring
      rw [step, hrs, div_self hSpos.ne', mul_one]
    rw [key2, Real.sqrt_sq
      (div_nonneg (mul_nonneg (mul_nonneg G_pos.le hM1) hm2) hS0),
      max_eq_left hd2]

/-- Witness for C2 at a concrete point outside the clamp: unit masses, source
at the origin, query at (3000, 4000), distance 5000 m. -/
theorem gravitational_force_spec_witness :
    force_magnitude (gravitational_force 1 1 0 0 3000 4000).1
        (gravitational_force 1 1 0 0 3000 4000).2 =
      G * 1 * 1 / max (((3000:ℝ) - 0) ^ 2 + ((4000:ℝ) - 0) ^ 2) 1000000 := by
  have e : Real.sqrt (((3000:ℝ) - 0) ^ 2 + ((4000:ℝ) - 0) ^ 2) = 5000 := by
    rw [show ((3000:ℝ) - 0) ^ 2 + ((4000:ℝ) - 0) ^ 2 = 5000 ^ 2 by norm_num]
    exact Real.sqrt_sq (by norm_num)
  exact (gravitational_force_spec 1 1 0 0 3000 4000 (by norm_num)
    (by norm_num)).2.2 (by rw [e]; norm_num)

/-- Counterexample to C2 as stated: at query point (3, 4) with a unit source
mass at the origin, the point is distinct from the source, yet the returned
magnitude is G*5/1e9, not the claimed G/1e6 floored value. -/
theorem gravitational_force_magnitude_counterexample :
    Real.sqrt (((3:ℝ) - 0) ^ 2 + ((4:ℝ) - 0) ^ 2) ≠ 0 ∧
    force_magnitude (gravitational_force 1 1 0 0 3 4).1
        (gravitational_force 1 1 0 0 3 4).2 ≠
      G * 1 * 1 / max (((3:ℝ) - 0) ^ 2 + ((4:ℝ) - 0) ^ 2) 1000000 := by
  constructor
  · rw [sqrt_3_4_dist]; norm_num
  · have hf := gravitational_force_clamped 1 1 0 0 3 4 (by norm_num)
    rw [hf, force_magnitude]
    dsimp only
    have key : (-G * 1 * 1 / 1000000 * (((3:ℝ) - 0) / 1000)) ^ 2 +
        (-G * 1 * 1 / 1000000 * (((4:ℝ) - 0) / 1000)) ^ 2 =
        (G / 200000000) ^ 2 := by ring
    rw [key, Real.sqrt_sq (div_nonneg G_pos.le (by norm_num)),
      max_eq_right (by norm_num)]
    intro heq
    have hG := G_pos
    rw [div_eq_div_iff (by norm_num) (by norm_num)] at heq
    nlinarith [heq, hG]

/-- C4 (amended): for a query point at distance at most 1000 m from the
source, gravitational_potential equals the floor-threshold value -G*M/1000,
while gravitational_force equals the formula with r2 and r replaced by their
floors (each component -G*M1*m2/1e6 times displacement/1000, hence scaled by
dist/1000 relative to the floor-threshold magnitude, not equal to it); both
outputs stay bounded (no singularity). -/
theorem clamp_below_threshold (M1 m2 x1 y1 x2 y2 : ℝ)
    (hd : Real.sqrt ((x2 - x1) ^ 2 + (y2 - y1) ^ 2) ≤ 1000) :
    gravitational_potential M1 x1 y1 x2 y2 = -G * M1 / 1000 ∧
    gravitational_force M1 m2 x1 y1 x2 y2 =
      (-G * M1 * m2 / 1000000 * ((x2 - x1) / 1000),
       -G * M1 * m2 / 1000000 * ((y2 - y1) / 1000)) ∧
    |(gravitational_force M1 m2 x1 y1 x2 y2).1| ≤ G * |M1| * |m2| / 1000000 ∧
    |(gravitational_force M1 m2 x1 y1 x2 y2).2| ≤ G * |M1| * |m2| / 1000000 := by
  have hS0 : (0:ℝ) ≤ (x2 - x1) ^ 2 + (y2 - y1) ^ 2 := by positivity
  have hd2 : (x2 - x1) ^ 2 + (y2 - y1) ^ 2 ≤ 1000000 := by
    nlinarith [Real.sq_sqrt hS0, Real.sqrt_nonneg ((x2 - x1) ^ 2 + (y2 - y1) ^ 2)]
  have hforce := gravitational_force_clamped M1 m2 x1 y1 x2 y2 hd2
  have habs_dx : |x2 - x1| ≤ 1000 := by
    rw [← Real.sqrt_sq_eq_abs]
    exact le_trans (Real.sqrt_le_sqrt (by nlinarith)) hd
  have habs_dy : |y2 - y1| ≤ 1000 := by
    rw [← Real.sqrt_sq_eq_abs]
    exact le_trans (Real.sqrt_le_sqrt (by nlinarith)) hd
  have hbound : ∀ d : ℝ, |d| ≤ 1000 →
      |(-G * M1 * m2 / 1000000 * (d / 1000))| ≤ G * |M1| * |m2| / 1000000 := by
    intro d hdle
    rw [abs_mul, abs_div, abs_div, abs_mul, abs_mul, abs_neg, abs_of_pos G_pos]
    rw [show |(1000000:ℝ)| = 1000000 by norm_num, show |(1000:ℝ)| = 1000 by norm_num]
    have h1 : |d| / 1000 ≤ 1 := by rw [div_le_one (by norm_num)]; exact hdle
    exact mul_le_of_le_one_right
      (div_nonneg (mul_nonneg (mul_nonneg G_pos.le (abs_nonneg M1)) (abs_nonneg m2))
        (by norm_num)) h1
  refine ⟨?_, hforce, ?_, ?_⟩
  · rw [gravitational_potential,
      max_eq_right (by norm_num; exact hd : Real.sqrt ((x2 - x1) ^ 2 + (y2 - y1) ^ 2) ≤ 1e3)]
    norm_num
  · rw [hforce]; exact hbound _ habs_dx
  · rw [hforce]; exact hbound _ habs_dy

/-- Witness for C4 at a concrete point inside the clamp: unit source mass at
the origin, query at (3, 4), distance 5 m, potential equal to the
floor-threshold value. -/
theorem clamp_below_threshold_witness :
    gravitational_potential 1 0 0 3 4 = -G * 1 / 1000 := by
  exact (clamp_below_threshold 1 1 0 0 3 4 (by rw [sqrt_3_4_dist]; norm_num)).1

/-- Counterexample to C4 as stated for the force: the query point (500, 0) is
at distance 500 < 1000 from the unit source at the origin, yet the force there
differs from the force at (1000, 0), the point at the floor-threshold distance
in the same direction. -/
theorem clamp_force_counterexample :
    Real.sqrt (((500:ℝ) - 0) ^ 2 + ((0:ℝ) - 0) ^ 2) < 1000 ∧
    (gravitational_force 1 1 0 0 500 0).1 ≠ (gravitational_force 1 1 0 0 1000 0).1 := by
  have e5 : Real.sqrt (((500:ℝ) - 0) ^ 2 + ((0:ℝ) - 0) ^ 2) = 500 := by
    rw [show ((500:ℝ) - 0) ^ 2 + ((0:ℝ) - 0) ^ 2 = 500 ^ 2 by norm_num]
    exact Real.sqrt_sq (by norm_num)
  constructor
  · rw [e5]; norm_num
  · have h1 := gravitational_force_clamped 1 1 0 0 500 0 (by norm_num)
    have h2 := gravitational_force_clamped 1 1 0 0 1000 0 (by norm_num)
    rw [h1, h2]
    dsimp only
    intro heq
    have hG := G_pos
    nlinarith [heq, hG]

theorem gridLoop_foldl_not_mem (X Y : ℕ → ℕ → ℝ) (s : ℕ × ℕ → ℝ × ℝ)
    (L : List (ℕ × ℕ)) (ij : ℕ × ℕ) (hij : ij ∉ L) :
    L.foldl (gridStep X Y) s ij = s ij := by
  induction L generalizing s with
  | nil => rfl
  | cons a L ih =>
    rw [List.foldl_cons, ih _ (fun hm => hij (List.mem_cons_of_mem a hm))]
    exact Function.update_noteq
      (fun he => hij (by rw [he]; exact List.mem_cons_self a L)) _ s

theorem gridLoop_foldl_mem (X Y : ℕ → ℕ → ℝ) (s : ℕ × ℕ → ℝ × ℝ)
    (L : List (ℕ × ℕ)) (ij : ℕ × ℕ) (hij : ij ∈ L) :
    L.foldl (gridStep X Y) s ij = force_at (X ij.1 ij.2) (Y ij.1 ij.2) := by
  induction L generalizing s with
  | nil => exact absurd hij (List.not_mem_nil ij)
  | cons a L ih =>
    rw [List.foldl_cons]
    by_cases hmem : ij ∈ L
    · exact ih _ hmem
    · have hija : ij = a := by
        rcases List.mem_cons.mp hij with he | hm
        · exact he
        · exact absurd hm hmem
      rw [gridLoop_foldl_not_mem X Y _ L ij hmem, hija, gridStep,
        Function.update_same]

theorem mem_gridIndices (n i j : ℕ) (hi : i < n) (hj : j < n) :
    (i, j) ∈ gridIndices n := by
  rw [gridIndices, List.mem_flatMap]
  exact ⟨i, List.mem_range.mpr hi,
    List.mem_map.mpr ⟨j, List.mem_range.mpr hj, rfl⟩⟩

/-- C9: each cell of the force field depends only on its own grid coordinate
and the fixed sources: the row-major double loop writes force_at(X i j, Y i j)
into cell (i, j), and any permutation of the iteration order produces the same
field, so the loop equals a pointwise map over grid indices. -/
theorem grid_loop_order_independent (n : ℕ) (X Y : ℕ → ℕ → ℝ) (i j : ℕ)
    (hi : i < n) (hj : j < n) (L : List (ℕ × ℕ))
    (hL : L.Perm (gridIndices n)) :
    gridLoop X Y (gridIndices n) (i, j) = force_at (X i j) (Y i j) ∧
    gridLoop X Y L (i, j) = gridLoop X Y (gridIndices n) (i, j) := by
  have hmem : (i, j) ∈ gridIndices n := mem_gridIndices n i j hi hj
  have hmemL : (i, j) ∈ L := hL.mem_iff.mpr hmem
  have h1 : gridLoop X Y (gridIndices n) (i, j) = force_at (X i j) (Y i j) :=
    gridLoop_foldl_mem X Y _ (gridIndices n) (i, j) hmem
  have h2 : gridLoop X Y L (i, j) = force_at (X i j) (Y i j) :=
    gridLoop_foldl_mem X Y _ L (i, j) hmemL
  exact ⟨h1, h2.trans h1.symm⟩

/-- Witness for C9 on the 1 x 1 grid with zero coordinate arrays and the
row-major order itself as the permuted order. -/
theorem grid_loop_order_independent_witness :
    gridLoop (fun _ _ => 0) (fun _ _ => 0) (gridIndices 1) (0, 0) =
      force_at 0 0 := by
  exact (grid_loop_order_independent 1 (fun _ _ => 0) (fun _ _ => 0) 0 0
    (by decide) (by decide) (gridIndices 1) (List.Perm.refl _)).1

/-- Closed-form velocity during the burn: the smooth integrand that delta_v
computes while m(t) > mf. -/
def v_burn (t : ℝ) : ℝ := ve * Real.log (m0 / (m0 - mdot * t)) - g * t

/-- Closed-form antiderivative of v_burn. -/
def v_burn_anti (t : ℝ) : ℝ :=
  ve * (t * Real.log m0 +
    (m0 - mdot * t) * (Real.log (m0 - mdot * t) - 1) / mdot) - g * t ^ 2 / 2

theorem m0_val : m0 = (2800000:ℝ) := by rw [m0]; norm_num

theorem mf_val : mf = (750000:ℝ) := by rw [mf]; norm_num

theorem mdot_val : mdot = (13000:ℝ) := by rw [mdot]; norm_num

theorem ve_val : ve = (2400:ℝ) := by rw [ve]; norm_num

theorem T_val : T = 2050 / 13 := by
  rw [T, m0_val, mf_val, mdot_val]; norm_num

theorem T_nonneg : (0:ℝ) ≤ T := by rw [T_val]; norm_num

theorem h_eq_integral_v_burn : h = ∫ t in (0:ℝ)..T, v_burn t := by
  rw [h]
  apply intervalIntegral.integral_congr_ae
  have hsing : (MeasureTheory.volume : MeasureTheory.Measure ℝ) {T} = 0 :=
    MeasureTheory.measure_singleton T
  rw [MeasureTheory.ae_iff]
  apply MeasureTheory.measure_mono_null _ hsing
  intro x hx
  simp only [Set.mem_setOf_eq, Classical.not_imp] at hx
  obtain ⟨hmem, hneq⟩ := hx
  rw [Set.uIoc_of_le T_nonneg] at hmem
  simp only [Set.mem_singleton_iff]
  by_contra hxT
  apply hneq
  have hxlt : x < T := lt_of_le_of_ne hmem.2 hxT
  have hmx : mf < m0 - mdot * x := by
    rw [m0_val, mf_val, mdot_val]
    rw [T_val] at hxlt
    nlinarith [hxlt]
  have hmax : max (m0 - mdot * x) mf = m0 - mdot * x := max_eq_left hmx.le
  rw [v_func, delta_v_eq_ite, if_pos (by rw [hmax]; exact hmx), hmax, v_burn]

theorem u_pos_on_interval (t : ℝ) (ht : t ≤ T) : 0 < m0 - mdot * t := by
  rw [m0_val, mdot_val]
  rw [T_val] at ht
  nlinarith [ht]

theorem v_burn_anti_deriv (t : ℝ) (ht : t ≤ T) :
    HasDerivAt v_burn_anti (v_burn t) t := by
  have hu : 0 < m0 - mdot * t := u_pos_on_interval t ht
  have h1 : HasDerivAt (fun s : ℝ => m0 - mdot * s) (-(mdot * 1)) t :=
    ((hasDerivAt_id t).const_mul mdot).const_sub m0
  have h2 : HasDerivAt (fun s : ℝ => Real.log (m0 - mdot * s))
      (-(mdot * 1) / (m0 - mdot * t)) t := h1.log hu.ne'
  have h3 : HasDerivAt
      (fun s : ℝ => (m0 - mdot * s) * (Real.log (m0 - mdot * s) - 1))
      (-(mdot * 1) * (Real.log (m0 - mdot * t) - 1) +
        (m0 - mdot * t) * (-(mdot * 1) / (m0 - mdot * t))) t :=
    h1.mul (h2.sub_const 1)
  have h4 : HasDerivAt (fun s : ℝ => s * Real.log m0) (1 * Real.log m0) t :=
    (hasDerivAt_id t).mul_const (Real.log m0)
  have h5 := (h4.add (h3.div_const mdot)).const_mul ve
  have h6 := ((hasDerivAt_pow 2 t).const_mul g).div_const 2
  have hF := h5.sub h6
  have hmdot0 : mdot ≠ 0 := by rw [mdot_val]; norm_num
  have hm00 : m0 ≠ 0 := by rw [m0_val]; norm_num
  have hD : v_burn t =
      ve * (1 * Real.log m0 +
        (-(mdot * 1) * (Real.log (m0 - mdot * t) - 1) +
          (m0 - mdot * t) * (-(mdot * 1) / (m0 - mdot * t))) / mdot) -
        g * ((2:ℕ) * t ^ (2 - 1)) / 2 := by
    rw [v_burn, Real.log_div hm00 hu.ne']
    field_simp
    ring
  rw [hD]
  exact hF

theorem v_burn_continuousOn : ContinuousOn v_burn (Set.uIcc 0 T) := by
  have hsub : ∀ x ∈ Set.uIcc (0:ℝ) T, x ≤ T := by
    intro x hx
    rw [Set.uIcc_of_le T_nonneg] at hx
    exact hx.2
  apply ContinuousOn.sub
  · apply ContinuousOn.mul continuousOn_const
    apply ContinuousOn.log
    · exact ContinuousOn.div continuousOn_const
        (Continuous.continuousOn (by continuity))
        (fun x hx => (u_pos_on_interval x (hsub x hx)).ne')
    · intro x hx
      apply div_ne_zero (by rw [m0_val]; norm_num)
      exact (u_pos_on_interval x (hsub x hx)).ne'
  · exact Continuous.continuousOn (by continuity)

theorem integral_v_burn :
    ∫ t in (0:ℝ)..T, v_burn t = v_burn_anti T - v_burn_anti 0 := by
  apply intervalIntegral.integral_eq_sub_of_hasDerivAt
  · intro t ht
    rw [Set.uIcc_of_le T_nonneg] at ht
    exact v_burn_anti_deriv t ht.2
  · exact v_burn_continuousOn.intervalIntegrable

theorem log_ratio_bounds :
    (1.3148:ℝ) < Real.log (56 / 15) ∧ Real.log ((56:ℝ) / 15) < 1.3197 := by
  have hsplit : Real.log ((56:ℝ) / 15) = 2 * Real.log 2 + Real.log (14 / 15) := by
    rw [show (56:ℝ) / 15 = 2 ^ 2 * (14 / 15) by norm_num,
      Real.log_mul (by norm_num) (by norm_num), Real.log_pow]
    push_cast
    ring
  have hup : Real.log ((14:ℝ) / 15) ≤ -1 / 15 := by
    have := Real.log_le_sub_one_of_pos (show (0:ℝ) < 14 / 15 by norm_num)
    linarith [this]
  have hlo : -(1 / 14 : ℝ) ≤ Real.log ((14:ℝ) / 15) := by
    have h1 : Real.log ((15:ℝ) / 14) ≤ 15 / 14 - 1 :=
      Real.log_le_sub_one_of_pos (by norm_num)
    have h2 : Real.log ((14:ℝ) / 15) = -Real.log ((15:ℝ) / 14) := by
      rw [← Real.log_inv]
      norm_num
    rw [h2]
    linarith
  constructor
  · rw [hsplit]
    linarith [Real.log_two_gt_d9, hlo]
  · rw [hsplit]
    linarith [Real.log_two_lt_d9, hup]

theorem h_closed_form :
    h = 2400 * (2050 / 13) - 1800000 / 13 * Real.log (56 / 15) -
      9.81 * (2050 / 13) ^ 2 / 2 := by
  rw [h_eq_integral_v_burn, integral_v_burn, v_burn_anti, v_burn_anti]
  have hmT : m0 - mdot * T = (750000:ℝ) := by
    rw [m0_val, mdot_val, T_val]
    norm_num
  have hm00 : m0 - mdot * 0 = (2800000:ℝ) := by
    rw [m0_val, mdot_val]
    norm_num
  rw [hmT, hm00, m0_val, mdot_val, ve_val, T_val, g]
  have hAB : Real.log (2800000:ℝ) = Real.log ((56:ℝ) / 15) + Real.log (750000:ℝ) := by
    rw [← Real.log_mul (by norm_num) (by norm_num)]
    norm_num
  rw [hAB]
  ring

/-- C8: the burnout altitude h is the definite integral of v_func from 0 to T,
it matches the closed-form antiderivative of the smooth integrand, and with
the scenario constants it is a finite positive number between 1e4 and 1e5 m.
The scipy quadrature is modelled by the exact interval integral. -/
theorem altitude_integral :
    h = ∫ t in (0:ℝ)..T, v_func t ∧
    h = v_burn_anti T - v_burn_anti 0 ∧
    10000 < h ∧ h < 100000 := by
  refine ⟨rfl, by rw [h_eq_integral_v_burn, integral_v_burn], ?_, ?_⟩
  · rw [h_closed_form]
    linarith [log_ratio_bounds.2]
  · rw [h_closed_form]
    linarith [log_ratio_bounds.1]

end Lab1
